import Mathlib

/-!
# astro.config.mjs: the frontmatter default-layout plugin

A shallow embedding of `astro.config.mjs`.  JavaScript objects live in a heap
and are handed around by reference, so the in-place write
`file.data.astro.frontmatter.layout = ...` is a heap update.

Object model.  Every object is an ordinary extensible object with writable data
properties and a built-in prototype (no accessors, proxies or frozen objects).
None of the four keys the program touches (`data`, `astro`, `frontmatter`,
`layout`) is defined on a built-in prototype, so a read of one of them that
misses the own properties yields `undefined` and a write of `layout` creates or
updates an own property.  The file is an ES module, hence strict-mode code.
-/

namespace AstroConfig


/-- Heap address of an object. -/
abbrev Addr := Nat

/-- JavaScript values; objects (functions included) are references into the heap. -/
inductive JSValue where
  | undefined
  | null
  | bool (b : Bool)
  | number (bits : Nat)
  | bigint (n : Int)
  | symbol (id : Nat)
  | string (s : String)
  | ref (a : Addr)
  deriving DecidableEq, Repr

/-- The function bodies this module defines: the declaration `defaultLayoutPlugin`
(lines 5-9) and the function expression it returns (lines 6-8). -/
inductive Code where
  | defaultLayoutPlugin
  | transformer
  deriving DecidableEq, Repr

/-- An object: its own properties in enumeration order, and the code it runs
when called (for function objects). -/
structure JSObject where
  props : List (String × JSValue)
  code : Option Code
  deriving DecidableEq, Repr

/-- The heap: the object at address `a` is the `a`-th entry. -/
abbrev Heap := List JSObject

/-- How the evaluation of an expression or of a call ends: normally with a
value, by a thrown TypeError (the error object itself is not modelled), or
`stuck` on a reference to no object of the heap. -/
inductive Outcome where
  | normal (v : JSValue)
  | typeError
  | stuck
  deriving DecidableEq, Repr

/-- Own-property lookup. -/
def getOwn (k : String) : List (String × JSValue) → Option JSValue
  | [] => none
  | (k', v) :: ps => if k' = k then some v else getOwn k ps

/-- Own-property write: an existing key keeps its place, a new key goes last. -/
def setOwn (k : String) (v : JSValue) : List (String × JSValue) → List (String × JSValue)
  | [] => [(k, v)]
  | (k', v') :: ps => if k' = k then (k', v) :: ps else (k', v') :: setOwn k v ps

/-- The own keys, in enumeration order. -/
def ownKeys (ps : List (String × JSValue)) : List String := ps.map Prod.fst

/-- The member read `base.k`, for a key `k` no built-in prototype defines:
`undefined` and `null` have no properties (TypeError), a primitive has no own
property `k`, an object yields its own property or `undefined`.  A reference
to no object of the heap is `stuck` (no JavaScript execution produces one). -/
def getProperty (h : Heap) (base : JSValue) (k : String) : Outcome :=
  match base with
  | .undefined => .typeError
  | .null => .typeError
  | .ref a =>
    match h[a]? with
    | some o => .normal ((getOwn k o.props).getD .undefined)
    | none => .stuck
  | _ => .normal .undefined

/-- The strict-mode member write `base.k = v`, for a key `k` no built-in
prototype defines: a TypeError on `undefined`, `null` and on a primitive, an
own-property write on an object. -/
def putProperty (h : Heap) (base : JSValue) (k : String) (v : JSValue) : Outcome × Heap :=
  match base with
  | .ref a =>
    match h[a]? with
    | some o => (.normal v, h.set a ⟨setOwn k v o.props, o.code⟩)
    | none => (.stuck, h)
  | _ => (.typeError, h)

/-- Sequencing of member reads: an abrupt outcome ends the evaluation. -/
def Outcome.andThen (o : Outcome) (f : JSValue → Outcome) : Outcome :=
  match o with
  | .normal v => f v
  | .typeError => .typeError
  | .stuck => .stuck

/-- The expression `file.data.astro.frontmatter` (the base of the assignment on line 7). -/
def frontmatterOf (h : Heap) (file : JSValue) : Outcome :=
  (getProperty h file "data").andThen fun data =>
    (getProperty h data "astro").andThen fun astro =>
      getProperty h astro "frontmatter"

/-- The function expression of lines 6-8:
`function (tree, file) { file.data.astro.frontmatter.layout = '@layouts/MainLayout.astro' }`.
It has no `return`, so a normal completion yields `undefined`. -/
def transformer (_tree file : JSValue) (h : Heap) : Outcome × Heap :=
  match frontmatterOf h file with
  | .normal frontmatter =>
    match putProperty h frontmatter "layout" (.string "@layouts/MainLayout.astro") with
    | (.normal _, h') => (.normal .undefined, h')
    | abrupt => abrupt
  | .typeError => (.typeError, h)
  | .stuck => (.stuck, h)

/-- The function declaration of lines 5-9: `defaultLayoutPlugin()` creates a
function object for the function expression and returns it.  The bookkeeping
properties of a function object (`length`, `name`, `prototype`) are left out:
the program reads none of them. -/
def defaultLayoutPlugin (_args : List JSValue) (h : Heap) : Outcome × Heap :=
  (.normal (.ref h.length), h ++ [⟨[], some .transformer⟩])

/-- The call `f(args...)`: a TypeError unless `f` is a function object; missing
arguments are `undefined`, surplus ones are dropped. -/
def call (h : Heap) (f : JSValue) (args : List JSValue) : Outcome × Heap :=
  match f with
  | .ref a =>
    match h[a]? with
    | some o =>
      match o.code with
      | some .defaultLayoutPlugin => defaultLayoutPlugin args h
      | some .transformer => transformer (args.getD 0 .undefined) (args.getD 1 .undefined) h
      | none => (.typeError, h)
    | none => (.stuck, h)
  | _ => (.typeError, h)

/-- Whether `f` is a function object running the function expression of lines
6-8, that is, a value some call `defaultLayoutPlugin()` returned. -/
def isTransformer (h : Heap) (f : JSValue) : Bool :=
  match f with
  | .ref a =>
    match h[a]? with
    | some o => o.code == some .transformer
    | none => false
  | _ => false

/-- The `markdown` entry of the configuration object. -/
structure MarkdownOptions where
  remarkPlugins : List JSValue
  extendDefaultPlugins : Bool
  deriving DecidableEq, Repr

/-- The object literal handed to `defineConfig`; `I` is the type of what the
imported integration factories return. -/
structure AstroUserConfig (I : Type) where
  integrations : List I
  markdown : MarkdownOptions
  site : String
  deriving DecidableEq, Repr

/-- The object literal of lines 13-25, the argument of `defineConfig`; `plugin`
is the value of the identifier `defaultLayoutPlugin`, and the imported
factories `preact` and `react` are called with no argument. -/
def userConfig {I : Type} (preact react : List JSValue → I) (plugin : JSValue) :
    AstroUserConfig I :=
  ⟨[preact [], react []], ⟨[plugin], true⟩, "http://astro.build"⟩

/-- Evaluation of the module: the declaration `defaultLayoutPlugin` is
instantiated as a function object, then `export default defineConfig(...)`
is evaluated.  The imports `defineConfig`, `preact` and `react` are parameters. -/
def exportDefault {I C : Type} (defineConfig : AstroUserConfig I → C)
    (preact react : List JSValue → I) (h : Heap) : C × Heap :=
  (defineConfig (userConfig preact react (.ref h.length)),
    h ++ [⟨[], some .defaultLayoutPlugin⟩])

/-- The file record has a frontmatter mapping: `file.data.astro.frontmatter`
evaluates to the object `o` at address `fm`. -/
def HasFrontmatter (h : Heap) (file : JSValue) (fm : Addr) (o : JSObject) : Prop :=
  frontmatterOf h file = .normal (.ref fm) ∧ h[fm]? = some o

instance (h : Heap) (file : JSValue) (fm : Addr) (o : JSObject) :
    Decidable (HasFrontmatter h file fm o) := by
  unfold HasFrontmatter; infer_instance

/-- A sample heap: a file record at address 0 whose frontmatter, at address 3, is empty. -/
def sampleHeap : Heap :=
  [⟨[("data", .ref 1)], none⟩, ⟨[("astro", .ref 2)], none⟩, ⟨[("frontmatter", .ref 3)], none⟩,
   ⟨[], none⟩, ⟨[], some .transformer⟩]

/-- The object `o` after `o.layout = '@layouts/MainLayout.astro'`. -/
def withLayout (o : JSObject) : JSObject :=
  ⟨setOwn "layout" (.string "@layouts/MainLayout.astro") o.props, o.code⟩

/-- A heap like `sampleHeap` whose frontmatter holds `title` and an author-supplied `layout`. -/
def customHeap : Heap :=
  [⟨[("data", .ref 1)], none⟩, ⟨[("astro", .ref 2)], none⟩, ⟨[("frontmatter", .ref 3)], none⟩,
   ⟨[("layout", .string "@layouts/Custom.astro"), ("title", .string "Post")], none⟩,
   ⟨[], some .transformer⟩]

/-- A heap like `sampleHeap` whose frontmatter holds `title` only. -/
def titleHeap : Heap :=
  [⟨[("data", .ref 1)], none⟩, ⟨[("astro", .ref 2)], none⟩, ⟨[("frontmatter", .ref 3)], none⟩,
   ⟨[("title", .string "Post")], none⟩, ⟨[], some .transformer⟩]

/-- Whether a value is `undefined` or `null`. -/
def isNullish : JSValue → Bool
  | .undefined => true
  | .null => true
  | _ => false

/-- A file record without `data`, and a transform at address 1. -/
def noDataHeap : Heap := [⟨[("path", .string "a.md")], none⟩, ⟨[], some .transformer⟩]

/-- A file record whose `data` has `astro: null`, and a transform at address 2. -/
def noAstroHeap : Heap :=
  [⟨[("data", .ref 1)], none⟩, ⟨[("astro", .null)], none⟩, ⟨[], some .transformer⟩]

/-- A file record whose `data.astro` has no `frontmatter`, and a transform at address 3. -/
def noFrontmatterHeap : Heap :=
  [⟨[("data", .ref 1)], none⟩, ⟨[("astro", .ref 2)], none⟩, ⟨[], none⟩, ⟨[], some .transformer⟩]

/-- A file record whose `data.astro.frontmatter` is a string, and a transform at address 3. -/
def textFrontmatterHeap : Heap :=
  [⟨[("data", .ref 1)], none⟩, ⟨[("astro", .ref 2)], none⟩,
   ⟨[("frontmatter", .string "title: Post")], none⟩, ⟨[], some .transformer⟩]

/-- The four objects of a document record: the file record, its `data`, the
`astro` entry of that, and the frontmatter mapping. -/
structure DocRecord where
  file : Addr
  data : Addr
  astro : Addr
  frontmatter : Addr
  deriving DecidableEq, Repr

/-- The record is laid out in the heap: each object links to the next under
the key the transform follows, and the frontmatter mapping exists. -/
def DocRecord.inHeap (r : DocRecord) (h : Heap) : Prop :=
  getProperty h (.ref r.file) "data" = .normal (.ref r.data) ∧
  getProperty h (.ref r.data) "astro" = .normal (.ref r.astro) ∧
  getProperty h (.ref r.astro) "frontmatter" = .normal (.ref r.frontmatter) ∧
  (h[r.frontmatter]?).isSome = true

instance (r : DocRecord) (h : Heap) : Decidable (r.inHeap h) := by
  unfold DocRecord.inHeap; infer_instance

/-- The objects of the record. -/
def DocRecord.objects (r : DocRecord) : List Addr := [r.file, r.data, r.astro, r.frontmatter]

/-- The frontmatter mapping is nested in the record: it is an object of its
own, none of the objects that lead to it. -/
def DocRecord.nested (r : DocRecord) : Prop := r.frontmatter ∉ [r.file, r.data, r.astro]

instance (r : DocRecord) : Decidable r.nested := by
  unfold DocRecord.nested; infer_instance

/-- Two records are distinct documents: they share no object. -/
def DocRecord.distinct (A B : DocRecord) : Prop := ∀ a ∈ A.objects, a ∉ B.objects

instance (A B : DocRecord) : Decidable (A.distinct B) := by
  unfold DocRecord.distinct; infer_instance

/-- The own property `k` of the object at address `a`, if both exist. -/
def field (h : Heap) (a : Addr) (k : String) : Option JSValue :=
  (h[a]?).bind fun o => getOwn k o.props

/-- Two document records, at addresses 0-3 and 4-7, and a transform at address 8. -/
def twoDocsHeap : Heap :=
  [⟨[("data", .ref 1), ("path", .string "a.md")], none⟩, ⟨[("astro", .ref 2)], none⟩,
   ⟨[("frontmatter", .ref 3)], none⟩, ⟨[("title", .string "A")], none⟩,
   ⟨[("data", .ref 5), ("path", .string "b.md")], none⟩, ⟨[("astro", .ref 6)], none⟩,
   ⟨[("frontmatter", .ref 7)], none⟩, ⟨[("layout", .string "@layouts/Custom.astro")], none⟩,
   ⟨[], some .transformer⟩]

/-- A record whose frontmatter is `file.data.astro` itself (the object at
address 2 holds itself under `frontmatter`), and a transform at address 3. -/
def cyclicHeap : Heap :=
  [⟨[("data", .ref 1)], none⟩, ⟨[("astro", .ref 2)], none⟩,
   ⟨[("frontmatter", .ref 2), ("x", .string "y")], none⟩, ⟨[], some .transformer⟩]

/-- The module evaluated in `sampleHeap`, with `defineConfig` the identity and
the two integrations named by strings. -/
def sampleModule : AstroUserConfig String × Heap :=
  exportDefault id (fun _ => "preact") (fun _ => "react") sampleHeap

/-! ## Own properties and the heap after the write -/

theorem getOwn_setOwn_same (k : String) (v : JSValue) (ps : List (String × JSValue)) :
    getOwn k (setOwn k v ps) = some v := by
  induction ps with
  | nil => simp [setOwn, getOwn]
  | cons p ps ih =>
    obtain ⟨k', v'⟩ := p
    by_cases hk : k' = k <;> simp [setOwn, getOwn, hk, ih]

theorem getOwn_setOwn_other {k k' : String} (hne : k' ≠ k) (v : JSValue)
    (ps : List (String × JSValue)) : getOwn k' (setOwn k v ps) = getOwn k' ps := by
  induction ps with
  | nil => simp [setOwn, getOwn, Ne.symm hne]
  | cons p ps ih =>
    obtain ⟨k'', v''⟩ := p
    by_cases hk : k'' = k
    · subst hk
      simp [setOwn, getOwn, Ne.symm hne]
    · by_cases hk' : k'' = k'
      · subst hk'
        simp [setOwn, getOwn, hne]
      · simp [setOwn, getOwn, hk, hk', ih]

theorem setOwn_setOwn (k : String) (v : JSValue) (ps : List (String × JSValue)) :
    setOwn k v (setOwn k v ps) = setOwn k v ps := by
  induction ps with
  | nil => simp [setOwn]
  | cons p ps ih =>
    obtain ⟨k', v'⟩ := p
    by_cases hk : k' = k <;> simp [setOwn, hk, ih]

theorem mem_ownKeys_setOwn (k k' : String) (v : JSValue) (ps : List (String × JSValue)) :
    k' ∈ ownKeys (setOwn k v ps) ↔ k' ∈ ownKeys ps ∨ k' = k := by
  induction ps with
  | nil => simp [setOwn, ownKeys]
  | cons p ps ih =>
    obtain ⟨k'', v''⟩ := p
    by_cases hk : k'' = k
    · subst hk
      simp only [setOwn, if_true, ownKeys, List.map_cons, List.mem_cons]
      tauto
    · simp only [ownKeys, List.map_cons, List.mem_cons] at ih ⊢
      simp only [setOwn, hk, if_false, List.map_cons, List.mem_cons, ih]
      tauto

theorem getOwn_isSome_iff (k : String) (ps : List (String × JSValue)) :
    (getOwn k ps).isSome = true ↔ k ∈ ownKeys ps := by
  induction ps with
  | nil => simp [getOwn, ownKeys]
  | cons p ps ih =>
    obtain ⟨k', v'⟩ := p
    by_cases hk : k' = k
    · simp [getOwn, ownKeys, hk]
    · simp only [ownKeys, List.map_cons, List.mem_cons] at ih ⊢
      simp [getOwn, hk, ih, Ne.symm hk]

theorem withLayout_withLayout (o : JSObject) : withLayout (withLayout o) = withLayout o := by
  simp [withLayout, setOwn_setOwn]

theorem getElem?_set_withLayout {h : Heap} {fm : Addr} {o : JSObject} (ho : h[fm]? = some o)
    (a : Addr) : (h.set fm (withLayout o))[a]? = if a = fm then some (withLayout o) else h[a]? := by
  have hlt : fm < h.length := by
    rcases Nat.lt_or_ge fm h.length with hl | hl
    · exact hl
    · rw [List.getElem?_eq_none hl] at ho
      cases ho
  by_cases hEq : a = fm
  · subst hEq
    simp [hlt]
  · simp [hEq, List.getElem?_set_ne (Ne.symm hEq)]

theorem getProperty_set_withLayout {h : Heap} {fm : Addr} {o : JSObject} (ho : h[fm]? = some o)
    (base : JSValue) {k : String} (hk : k ≠ "layout") :
    getProperty (h.set fm (withLayout o)) base k = getProperty h base k := by
  cases base with
  | ref a =>
    simp only [getProperty, getElem?_set_withLayout ho]
    by_cases hEq : a = fm
    · subst hEq
      simp [ho, withLayout, getOwn_setOwn_other hk]
    · simp [hEq]
  | _ => rfl

theorem frontmatterOf_set_withLayout {h : Heap} {fm : Addr} {o : JSObject} (ho : h[fm]? = some o)
    (file : JSValue) : frontmatterOf (h.set fm (withLayout o)) file = frontmatterOf h file := by
  have e1 := getProperty_set_withLayout ho file (k := "data") (by decide)
  have e2 : ∀ d, getProperty (h.set fm (withLayout o)) d "astro" = getProperty h d "astro" :=
    fun d => getProperty_set_withLayout ho d (by decide)
  have e3 : ∀ d, getProperty (h.set fm (withLayout o)) d "frontmatter"
      = getProperty h d "frontmatter" :=
    fun d => getProperty_set_withLayout ho d (by decide)
  simp only [frontmatterOf, e1, e2, e3]

theorem transformer_of_hasFrontmatter {h : Heap} {file : JSValue} {fm : Addr} {o : JSObject}
    (hf : HasFrontmatter h file fm o) (tree : JSValue) :
    transformer tree file h = (.normal .undefined, h.set fm (withLayout o)) := by
  obtain ⟨h1, h2⟩ := hf
  simp [transformer, h1, putProperty, h2, withLayout]

theorem hasFrontmatter_set {h : Heap} {file : JSValue} {fm : Addr} {o : JSObject}
    (hf : HasFrontmatter h file fm o) :
    HasFrontmatter (h.set fm (withLayout o)) file fm (withLayout o) := by
  obtain ⟨h1, h2⟩ := hf
  refine ⟨by rw [frontmatterOf_set_withLayout h2, h1], ?_⟩
  rw [getElem?_set_withLayout h2]
  simp

/-- Either the file record has a frontmatter mapping, or the call ends abruptly
and the heap is left as it was. -/
theorem transformer_cases (tree file : JSValue) (h : Heap) :
    (∃ fm o, HasFrontmatter h file fm o) ∨
      ((transformer tree file h).1 = .typeError ∨ (transformer tree file h).1 = .stuck) ∧
        (transformer tree file h).2 = h := by
  unfold transformer
  cases hfo : frontmatterOf h file with
  | normal v =>
    cases v with
    | ref a =>
      cases ha : h[a]? with
      | some o => exact Or.inl ⟨a, o, hfo, ha⟩
      | none => right; simp [putProperty, ha]
    | _ => right; simp [putProperty]
  | typeError => right; simp
  | stuck => right; simp

theorem call_of_isTransformer {h : Heap} {f : JSValue} (hf : isTransformer h f = true)
    (tree file : JSValue) : call h f [tree, file] = transformer tree file h := by
  cases f with
  | ref a =>
    simp only [isTransformer] at hf
    cases ha : h[a]? with
    | none => simp [ha] at hf
    | some o =>
      simp only [ha, beq_iff_eq] at hf
      simp [call, ha, hf]
  | _ => simp [isTransformer] at hf

theorem isTransformer_set {h : Heap} {fm : Addr} {o : JSObject} (ho : h[fm]? = some o)
    (f : JSValue) : isTransformer (h.set fm (withLayout o)) f = isTransformer h f := by
  cases f with
  | ref a =>
    simp only [isTransformer, getElem?_set_withLayout ho]
    by_cases hEq : a = fm
    · subst hEq
      simp [ho, withLayout]
    · simp [hEq]
  | _ => rfl

theorem isTransformer_transformer (tree file : JSValue) (h : Heap) (f : JSValue) :
    isTransformer (transformer tree file h).2 f = isTransformer h f := by
  rcases transformer_cases tree file h with ⟨fm, o, hf⟩ | ⟨_, h2⟩
  · rw [transformer_of_hasFrontmatter hf]
    exact isTransformer_set hf.2 f
  · rw [h2]

theorem isTransformer_defaultLayoutPlugin (args : List JSValue) (h : Heap) :
    ∃ f, (defaultLayoutPlugin args h).1 = .normal f ∧
      isTransformer (defaultLayoutPlugin args h).2 f = true := by
  refine ⟨.ref h.length, rfl, ?_⟩
  simp [defaultLayoutPlugin, isTransformer]

theorem call_of_hasFrontmatter {h : Heap} {f file : JSValue} {fm : Addr} {o : JSObject}
    (hf : isTransformer h f = true) (hfm : HasFrontmatter h file fm o) (tree : JSValue) :
    call h f [tree, file] = (.normal .undefined, h.set fm (withLayout o)) := by
  rw [call_of_isTransformer hf, transformer_of_hasFrontmatter hfm]

theorem transformer_idem (tree file : JSValue) (h : Heap) :
    transformer tree file (transformer tree file h).2 = transformer tree file h := by
  rcases transformer_cases tree file h with ⟨fm, o, hfm⟩ | ⟨_, h2⟩
  · rw [transformer_of_hasFrontmatter hfm, transformer_of_hasFrontmatter (hasFrontmatter_set hfm),
      withLayout_withLayout]
    simp
  · rw [h2]

/-- C1: when `file.data.astro.frontmatter` is a mapping, the transform returned by
`defaultLayoutPlugin()` ends normally and afterwards the same mapping holds
`layout` equal to `"@layouts/MainLayout.astro"`, whatever it held before; the
empty mapping becomes exactly the mapping with that one entry. -/
theorem layout_set_after_transform (h : Heap) (f tree file : JSValue) (fm : Addr) (o : JSObject)
    (hf : isTransformer h f = true) (hfm : HasFrontmatter h file fm o) :
    (call h f [tree, file]).1 = .normal .undefined ∧
      ∃ o', HasFrontmatter (call h f [tree, file]).2 file fm o' ∧
        getOwn "layout" o'.props = some (.string "@layouts/MainLayout.astro") ∧
        (o.props = [] → o'.props = [("layout", .string "@layouts/MainLayout.astro")]) := by
  rw [call_of_hasFrontmatter hf hfm]
  refine ⟨rfl, withLayout o, hasFrontmatter_set hfm, ?_, ?_⟩
  · exact getOwn_setOwn_same _ _ _
  · intro he
    simp [withLayout, he, setOwn]

theorem layout_set_after_transform_witness :
    (defaultLayoutPlugin [] (sampleHeap.take 4) = (.normal (.ref 4), sampleHeap)) ∧
    (call sampleHeap (.ref 4) [.null, .ref 0]).1 = .normal .undefined ∧
      ∃ o', HasFrontmatter (call sampleHeap (.ref 4) [.null, .ref 0]).2 (.ref 0) 3 o' ∧
        getOwn "layout" o'.props = some (.string "@layouts/MainLayout.astro") ∧
        ((⟨[], none⟩ : JSObject).props = [] →
          o'.props = [("layout", .string "@layouts/MainLayout.astro")]) :=
  ⟨by decide,
    layout_set_after_transform sampleHeap (.ref 4) .null (.ref 0) 3 ⟨[], none⟩ (by decide)
      (by decide)⟩

/-- C2: the write is unconditional.  For two file records whose frontmatter
mappings agree on every key other than `layout` (whether or not either holds a
`layout`, and whatever its value), the mappings after the transform agree on
every key, and `layout` is `"@layouts/MainLayout.astro"` in both. -/
theorem layout_overwritten (h₁ h₂ : Heap) (f₁ f₂ tree₁ tree₂ file₁ file₂ : JSValue)
    (fm₁ fm₂ : Addr) (o₁ o₂ : JSObject)
    (hf₁ : isTransformer h₁ f₁ = true) (hf₂ : isTransformer h₂ f₂ = true)
    (hfm₁ : HasFrontmatter h₁ file₁ fm₁ o₁) (hfm₂ : HasFrontmatter h₂ file₂ fm₂ o₂)
    (hagree : ∀ k, k ≠ "layout" → getOwn k o₁.props = getOwn k o₂.props) :
    ∃ o₁' o₂', HasFrontmatter (call h₁ f₁ [tree₁, file₁]).2 file₁ fm₁ o₁' ∧
      HasFrontmatter (call h₂ f₂ [tree₂, file₂]).2 file₂ fm₂ o₂' ∧
      (∀ k, getOwn k o₁'.props = getOwn k o₂'.props) ∧
      getOwn "layout" o₁'.props = some (.string "@layouts/MainLayout.astro") ∧
      getOwn "layout" o₂'.props = some (.string "@layouts/MainLayout.astro") := by
  rw [call_of_hasFrontmatter hf₁ hfm₁, call_of_hasFrontmatter hf₂ hfm₂]
  refine ⟨withLayout o₁, withLayout o₂, hasFrontmatter_set hfm₁, hasFrontmatter_set hfm₂, ?_,
    getOwn_setOwn_same _ _ _, getOwn_setOwn_same _ _ _⟩
  intro k
  by_cases hk : k = "layout"
  · subst hk
    simp [withLayout, getOwn_setOwn_same]
  · simp [withLayout, getOwn_setOwn_other hk, hagree k hk]

theorem agree_custom_title (k : String) (hk : k ≠ "layout") :
    getOwn k [("layout", JSValue.string "@layouts/Custom.astro"), ("title", .string "Post")]
      = getOwn k [("title", .string "Post")] := by
  simp [getOwn, Ne.symm hk]

theorem layout_overwritten_witness :
    ∃ o₁' o₂', HasFrontmatter (call customHeap (.ref 4) [.null, .ref 0]).2 (.ref 0) 3 o₁' ∧
      HasFrontmatter (call titleHeap (.ref 4) [.null, .ref 0]).2 (.ref 0) 3 o₂' ∧
      (∀ k, getOwn k o₁'.props = getOwn k o₂'.props) ∧
      getOwn "layout" o₁'.props = some (.string "@layouts/MainLayout.astro") ∧
      getOwn "layout" o₂'.props = some (.string "@layouts/MainLayout.astro") :=
  layout_overwritten customHeap titleHeap (.ref 4) (.ref 4) .null .null (.ref 0) (.ref 0) 3 3
    ⟨[("layout", .string "@layouts/Custom.astro"), ("title", .string "Post")], none⟩
    ⟨[("title", .string "Post")], none⟩ (by decide) (by decide) (by decide) (by decide)
    agree_custom_title

/-- C3: every key other than `layout` is left as it was by the transform (present
afterwards exactly when present before, with the same value), and the keys
afterwards are the keys before together with `layout`; the mapping holding only
`title: "Post"` becomes that entry followed by the `layout` entry. -/
theorem other_keys_unchanged (h : Heap) (f tree file : JSValue) (fm : Addr) (o : JSObject)
    (hf : isTransformer h f = true) (hfm : HasFrontmatter h file fm o) :
    ∃ o', HasFrontmatter (call h f [tree, file]).2 file fm o' ∧
      (∀ k, k ≠ "layout" → getOwn k o'.props = getOwn k o.props) ∧
      (∀ k, k ∈ ownKeys o'.props ↔ k ∈ ownKeys o.props ∨ k = "layout") ∧
      (o.props = [("title", .string "Post")] →
        o'.props = [("title", .string "Post"),
          ("layout", .string "@layouts/MainLayout.astro")]) := by
  rw [call_of_hasFrontmatter hf hfm]
  refine ⟨withLayout o, hasFrontmatter_set hfm, ?_, ?_, ?_⟩
  · intro k hk
    exact getOwn_setOwn_other hk _ _
  · intro k
    exact mem_ownKeys_setOwn _ _ _ _
  · intro he
    simp [withLayout, he, setOwn]

theorem other_keys_unchanged_witness :
    ∃ o', HasFrontmatter (call titleHeap (.ref 4) [.null, .ref 0]).2 (.ref 0) 3 o' ∧
      (∀ k, k ≠ "layout" → getOwn k o'.props = getOwn k [("title", .string "Post")]) ∧
      (∀ k, k ∈ ownKeys o'.props ↔ k ∈ ownKeys [("title", .string "Post")] ∨ k = "layout") ∧
      ([("title", JSValue.string "Post")] = [("title", .string "Post")] →
        o'.props = [("title", .string "Post"),
          ("layout", .string "@layouts/MainLayout.astro")]) :=
  other_keys_unchanged titleHeap (.ref 4) .null (.ref 0) 3 ⟨[("title", .string "Post")], none⟩
    (by decide) (by decide)

/-- C4: the transform is idempotent: calling it a second time on the same
arguments leaves the heap as the first call left it, with the same outcome. -/
theorem transform_idempotent (h : Heap) (f tree file : JSValue)
    (hf : isTransformer h f = true) :
    call (call h f [tree, file]).2 f [tree, file] = call h f [tree, file] := by
  have hf' : isTransformer (call h f [tree, file]).2 f = true := by
    rw [call_of_isTransformer hf, isTransformer_transformer, hf]
  rw [call_of_isTransformer hf', call_of_isTransformer hf]
  exact transformer_idem tree file h

theorem transform_idempotent_witness :
    call (call customHeap (.ref 4) [.null, .ref 0]).2 (.ref 4) [.null, .ref 0]
      = call customHeap (.ref 4) [.null, .ref 0] ∧
    (call customHeap (.ref 4) [.null, .ref 0]).1 = .normal .undefined :=
  ⟨transform_idempotent customHeap (.ref 4) .null (.ref 0) (by decide), by decide⟩

theorem transformer_of_not_ref {h : Heap} {file m : JSValue}
    (hm : frontmatterOf h file = .normal m) (hnr : ∀ a, m ≠ .ref a) (tree : JSValue) :
    transformer tree file h = (.typeError, h) := by
  cases m with
  | ref a => exact absurd rfl (hnr a)
  | _ => simp [transformer, hm, putProperty]

theorem not_ref_of_isNullish {m : JSValue} (hm : isNullish m = true) : ∀ a, m ≠ .ref a := by
  intro a he
  subst he
  simp [isNullish] at hm

theorem transformer_of_frontmatterOf_typeError {h : Heap} {file : JSValue}
    (hm : frontmatterOf h file = .typeError) (tree : JSValue) :
    transformer tree file h = (.typeError, h) := by
  simp [transformer, hm]

/-- C5: the transform fails exactly when the frontmatter object cannot be
written.  When `file.data`, `file.data.astro` or `file.data.astro.frontmatter`
is `undefined` or `null` the call throws a TypeError and the heap is left as it
was; when `file.data.astro.frontmatter` is a mapping the call ends normally;
the call ends normally only then, and every call that does not leaves the heap
as it was; a frontmatter that is a primitive value cannot be written either
(strict mode) and gives a TypeError. -/
theorem transform_fails_iff_unwritable (h : Heap) (f tree file : JSValue)
    (hf : isTransformer h f = true) :
    (∀ d, getProperty h file "data" = .normal d → isNullish d = true →
        call h f [tree, file] = (.typeError, h)) ∧
    (∀ d a, getProperty h file "data" = .normal d → getProperty h d "astro" = .normal a →
        isNullish a = true → call h f [tree, file] = (.typeError, h)) ∧
    (∀ m, frontmatterOf h file = .normal m → isNullish m = true →
        call h f [tree, file] = (.typeError, h)) ∧
    (∀ fm o, HasFrontmatter h file fm o → (call h f [tree, file]).1 = .normal .undefined) ∧
    ((call h f [tree, file]).1 = .normal .undefined ↔ ∃ fm o, HasFrontmatter h file fm o) ∧
    ((call h f [tree, file]).1 ≠ .normal .undefined → (call h f [tree, file]).2 = h) ∧
    (∀ m, frontmatterOf h file = .normal m → (∀ a, m ≠ .ref a) →
        call h f [tree, file] = (.typeError, h)) := by
  rw [call_of_isTransformer hf]
  refine ⟨?_, ?_, ?_, ?_, ?_, ?_, fun m hm hnr => transformer_of_not_ref hm hnr tree⟩
  · intro d hd hn
    apply transformer_of_frontmatterOf_typeError
    rw [frontmatterOf, hd]
    cases d <;> simp [isNullish] at hn <;> rfl
  · intro d a hd ha hn
    apply transformer_of_frontmatterOf_typeError
    rw [frontmatterOf, hd]
    simp only [Outcome.andThen]
    rw [ha]
    cases a <;> simp [isNullish] at hn <;> rfl
  · intro m hm hn
    exact transformer_of_not_ref hm (not_ref_of_isNullish hn) tree
  · intro fm o hfm
    rw [transformer_of_hasFrontmatter hfm]
  · constructor
    · intro hok
      rcases transformer_cases tree file h with hex | ⟨hab, _⟩
      · exact hex
      · rcases hab with hab | hab <;> rw [hab] at hok <;> cases hok
    · rintro ⟨fm, o, hfm⟩
      rw [transformer_of_hasFrontmatter hfm]
  · intro hne
    rcases transformer_cases tree file h with ⟨fm, o, hfm⟩ | ⟨_, h2⟩
    · rw [transformer_of_hasFrontmatter hfm] at hne
      exact absurd rfl hne
    · exact h2

theorem transform_fails_iff_unwritable_witness :
    call noDataHeap (.ref 1) [.null, .ref 0] = (.typeError, noDataHeap) ∧
    call noAstroHeap (.ref 2) [.null, .ref 0] = (.typeError, noAstroHeap) ∧
    call noFrontmatterHeap (.ref 3) [.null, .ref 0] = (.typeError, noFrontmatterHeap) ∧
    (call sampleHeap (.ref 4) [.null, .ref 0]).1 = .normal .undefined ∧
    call textFrontmatterHeap (.ref 3) [.null, .ref 0] = (.typeError, textFrontmatterHeap) :=
  ⟨(transform_fails_iff_unwritable noDataHeap (.ref 1) .null (.ref 0) (by decide)).1
      .undefined (by decide) (by decide),
    (transform_fails_iff_unwritable noAstroHeap (.ref 2) .null (.ref 0) (by decide)).2.1
      (.ref 1) .null (by decide) (by decide) (by decide),
    (transform_fails_iff_unwritable noFrontmatterHeap (.ref 3) .null (.ref 0) (by decide)).2.2.1
      .undefined (by decide) (by decide),
    (transform_fails_iff_unwritable sampleHeap (.ref 4) .null (.ref 0) (by decide)).2.2.2.1
      3 ⟨[], none⟩ (by decide),
    (transform_fails_iff_unwritable textFrontmatterHeap (.ref 3) .null (.ref 0)
      (by decide)).2.2.2.2.2.2 (.string "title: Post") (by decide)
      (fun _ hEq => JSValue.noConfusion hEq)⟩

/-- C10: the transform returns no value: whenever the call ends normally its
value is `undefined`. -/
theorem transform_returns_undefined (h : Heap) (f tree file v : JSValue)
    (hf : isTransformer h f = true) (hv : (call h f [tree, file]).1 = .normal v) :
    v = .undefined := by
  rw [call_of_isTransformer hf] at hv
  rcases transformer_cases tree file h with ⟨fm, o, hfm⟩ | ⟨hab, _⟩
  · rw [transformer_of_hasFrontmatter hfm] at hv
    cases hv
    rfl
  · rcases hab with hab | hab <;> rw [hab] at hv <;> cases hv

theorem transform_returns_undefined_witness :
    (call sampleHeap (.ref 4) [.ref 1, .ref 0]).1 = .normal .undefined ∧
      JSValue.undefined = .undefined :=
  ⟨by decide,
    transform_returns_undefined sampleHeap (.ref 4) (.ref 1) (.ref 0) .undefined (by decide)
      (by decide)⟩

/-- C7: the tree argument is unused: two calls that differ only in the tree end
the same way and leave the same heap. -/
theorem tree_unused (h : Heap) (f t₁ t₂ file : JSValue) (hf : isTransformer h f = true) :
    call h f [t₁, file] = call h f [t₂, file] := by
  rw [call_of_isTransformer hf, call_of_isTransformer hf]
  rfl

theorem tree_unused_witness :
    call titleHeap (.ref 4) [.ref 1, .ref 0] = call titleHeap (.ref 4) [.string "x", .ref 0] ∧
    call noDataHeap (.ref 1) [.null, .ref 0] = call noDataHeap (.ref 1) [.ref 0, .ref 0] :=
  ⟨tree_unused titleHeap (.ref 4) (.ref 1) (.string "x") (.ref 0) (by decide),
    tree_unused noDataHeap (.ref 1) .null (.ref 0) (.ref 0) (by decide)⟩

theorem DocRecord.hasFrontmatter {r : DocRecord} {h : Heap} (hr : r.inHeap h) :
    ∃ o, HasFrontmatter h (.ref r.file) r.frontmatter o := by
  obtain ⟨h1, h2, h3, h4⟩ := hr
  obtain ⟨o, ho⟩ := Option.isSome_iff_exists.mp h4
  refine ⟨o, ?_, ho⟩
  rw [frontmatterOf, h1]
  simp only [Outcome.andThen]
  rw [h2]
  simp only []
  exact h3

theorem DocRecord.inHeap_set {r : DocRecord} {h : Heap} (hr : r.inHeap h) {fm : Addr}
    {o : JSObject} (ho : h[fm]? = some o) : r.inHeap (h.set fm (withLayout o)) := by
  obtain ⟨h1, h2, h3, h4⟩ := hr
  refine ⟨?_, ?_, ?_, ?_⟩
  · rw [getProperty_set_withLayout ho _ (by decide), h1]
  · rw [getProperty_set_withLayout ho _ (by decide), h2]
  · rw [getProperty_set_withLayout ho _ (by decide), h3]
  · rw [getElem?_set_withLayout ho]
    by_cases hEq : r.frontmatter = fm
    · simp [hEq]
    · simpa [hEq] using h4

theorem getElem?_set_of_ne {h : Heap} {fm : Addr} {o : JSObject} (ho : h[fm]? = some o)
    {a : Addr} (ha : a ≠ fm) : (h.set fm (withLayout o))[a]? = h[a]? := by
  rw [getElem?_set_withLayout ho]
  simp [ha]

/-- C6, as amended: the transform touches only the frontmatter mapping.  For
every tree and every file record with a frontmatter mapping, after the call
every object of the heap other than the mapping is as before (the nodes of the
tree and whatever lies outside the record), the tree itself when it is not the
mapping, no object is created or removed, and the only property of any object
that can differ is `layout` of the mapping.  When the mapping is an object of
its own, none of `file`, `file.data` and `file.data.astro`, every field of
`file` other than `data`, of `file.data` other than `astro` and of
`file.data.astro` other than `frontmatter` is as before. -/
theorem transform_frame (h : Heap) (f tree : JSValue) (r : DocRecord)
    (hf : isTransformer h f = true) (hr : r.inHeap h) :
    (∀ a, a ≠ r.frontmatter → (call h f [tree, .ref r.file]).2[a]? = h[a]?) ∧
    (∀ t, tree = .ref t → t ≠ r.frontmatter →
      (call h f [tree, .ref r.file]).2[t]? = h[t]?) ∧
    (call h f [tree, .ref r.file]).2.length = h.length ∧
    (∀ a k, a ≠ r.frontmatter ∨ k ≠ "layout" →
      field (call h f [tree, .ref r.file]).2 a k = field h a k) ∧
    (r.nested →
      (∀ k, k ≠ "data" →
        field (call h f [tree, .ref r.file]).2 r.file k = field h r.file k) ∧
      (∀ k, k ≠ "astro" →
        field (call h f [tree, .ref r.file]).2 r.data k = field h r.data k) ∧
      (∀ k, k ≠ "frontmatter" →
        field (call h f [tree, .ref r.file]).2 r.astro k = field h r.astro k)) := by
  obtain ⟨o, hfm⟩ := r.hasFrontmatter hr
  rw [call_of_hasFrontmatter hf hfm]
  refine ⟨?_, ?_, ?_, ?_, ?_⟩
  · intro a ha
    exact getElem?_set_of_ne hfm.2 ha
  · intro t _ ht
    exact getElem?_set_of_ne hfm.2 ht
  · simp
  · intro a k hak
    by_cases ha : a = r.frontmatter
    · subst ha
      have hk : k ≠ "layout" := by
        rcases hak with hak | hak
        · exact absurd rfl hak
        · exact hak
      have e := getElem?_set_withLayout hfm.2 r.frontmatter
      rw [if_pos rfl] at e
      unfold field
      rw [e, hfm.2]
      exact getOwn_setOwn_other hk _ _
    · simp only [field, getElem?_set_of_ne hfm.2 ha]
  · intro hn
    simp only [DocRecord.nested, List.mem_cons, List.mem_singleton, not_or, List.not_mem_nil,
      or_false] at hn
    obtain ⟨n1, n2, n3⟩ := hn
    refine ⟨?_, ?_, ?_⟩
    · intro k _
      simp only [field, getElem?_set_of_ne hfm.2 (Ne.symm n1)]
    · intro k _
      simp only [field, getElem?_set_of_ne hfm.2 (Ne.symm n2)]
    · intro k _
      simp only [field, getElem?_set_of_ne hfm.2 (Ne.symm n3)]

theorem transform_frame_witness :
    ((∀ a, a ≠ 3 → (call twoDocsHeap (.ref 8) [.ref 4, .ref 0]).2[a]? = twoDocsHeap[a]?) ∧
      (call twoDocsHeap (.ref 8) [.ref 4, .ref 0]).2[4]? = twoDocsHeap[4]? ∧
      (call twoDocsHeap (.ref 8) [.ref 4, .ref 0]).2.length = twoDocsHeap.length) ∧
    ((∀ k, k ≠ "data" →
        field (call twoDocsHeap (.ref 8) [.ref 4, .ref 0]).2 0 k = field twoDocsHeap 0 k) ∧
      (∀ k, k ≠ "astro" →
        field (call twoDocsHeap (.ref 8) [.ref 4, .ref 0]).2 1 k = field twoDocsHeap 1 k) ∧
      (∀ k, k ≠ "frontmatter" →
        field (call twoDocsHeap (.ref 8) [.ref 4, .ref 0]).2 2 k = field twoDocsHeap 2 k)) ∧
    (∀ a k, a ≠ 2 ∨ k ≠ "layout" →
      field (call cyclicHeap (.ref 3) [.null, .ref 0]).2 a k = field cyclicHeap a k) :=
  ⟨⟨(transform_frame twoDocsHeap (.ref 8) (.ref 4) ⟨0, 1, 2, 3⟩ (by decide) (by decide)).1,
      (transform_frame twoDocsHeap (.ref 8) (.ref 4) ⟨0, 1, 2, 3⟩ (by decide) (by decide)).2.1
        4 rfl (by decide),
      (transform_frame twoDocsHeap (.ref 8) (.ref 4) ⟨0, 1, 2, 3⟩ (by decide)
        (by decide)).2.2.1⟩,
    (transform_frame twoDocsHeap (.ref 8) (.ref 4) ⟨0, 1, 2, 3⟩ (by decide) (by decide)).2.2.2.2
      (by decide),
    (transform_frame cyclicHeap (.ref 3) .null ⟨0, 1, 2, 2⟩ (by decide) (by decide)).2.2.2.1⟩

/-- C6, as stated, fails when the mapping is not an object of its own.  In
`cyclicHeap` the frontmatter of the record is `file.data.astro` itself, and the
call gives `file.data.astro` a field `layout`, a field other than
`frontmatter`, which it did not have.  In `sampleHeap`, called with the mapping
as the tree, the tree is not as it was before. -/
theorem transform_frame_fails_on_shared_mapping :
    isTransformer cyclicHeap (.ref 3) = true ∧
    HasFrontmatter cyclicHeap (.ref 0) 2 ⟨[("frontmatter", .ref 2), ("x", .string "y")], none⟩ ∧
    getProperty cyclicHeap (.ref 1) "astro" = .normal (.ref 2) ∧
    decide ("layout" = "frontmatter") = false ∧
    field cyclicHeap 2 "layout" = none ∧
    field (call cyclicHeap (.ref 3) [.null, .ref 0]).2 2 "layout"
      = some (.string "@layouts/MainLayout.astro") ∧
    HasFrontmatter sampleHeap (.ref 0) 3 ⟨[], none⟩ ∧
    sampleHeap[3]? = some ⟨[], none⟩ ∧
    (call sampleHeap (.ref 4) [.ref 3, .ref 0]).2[3]?
      = some ⟨[("layout", .string "@layouts/MainLayout.astro")], none⟩ := by
  decide

/-- C8: invocations are independent.  For two records that share no object,
the transform applied to `A` leaves every object of `B` as it was; applied to
`A` then `B` it leaves the same heap as applied to `B` then `A`, both calls
ending normally; and the objects of `B` after `A` then `B` are what they are
after `B` alone. -/
theorem invocations_independent (h : Heap) (f tA tB : JSValue) (A B : DocRecord)
    (hf : isTransformer h f = true) (hA : A.inHeap h) (hB : B.inHeap h)
    (hd : A.distinct B) :
    (∀ a ∈ B.objects, (call h f [tA, .ref A.file]).2[a]? = h[a]?) ∧
    B.inHeap (call h f [tA, .ref A.file]).2 ∧
    (call (call h f [tA, .ref A.file]).2 f [tB, .ref B.file]).1 = .normal .undefined ∧
    (call (call h f [tB, .ref B.file]).2 f [tA, .ref A.file]).1 = .normal .undefined ∧
    (call (call h f [tA, .ref A.file]).2 f [tB, .ref B.file]).2
      = (call (call h f [tB, .ref B.file]).2 f [tA, .ref A.file]).2 ∧
    (∀ a ∈ B.objects, (call (call h f [tA, .ref A.file]).2 f [tB, .ref B.file]).2[a]?
      = (call h f [tB, .ref B.file]).2[a]?) := by
  obtain ⟨oA, hfA⟩ := A.hasFrontmatter hA
  obtain ⟨oB, hfB⟩ := B.hasFrontmatter hB
  have hAB : ∀ a ∈ B.objects, a ≠ A.frontmatter := by
    intro a ha he
    subst he
    exact hd _ (by simp [DocRecord.objects]) ha
  have hne : B.frontmatter ≠ A.frontmatter := hAB _ (by simp [DocRecord.objects])
  have hf1 : isTransformer (h.set A.frontmatter (withLayout oA)) f = true := by
    rw [isTransformer_set hfA.2, hf]
  have hf2 : isTransformer (h.set B.frontmatter (withLayout oB)) f = true := by
    rw [isTransformer_set hfB.2, hf]
  have hfB' : HasFrontmatter (h.set A.frontmatter (withLayout oA)) (.ref B.file)
      B.frontmatter oB := by
    refine ⟨by rw [frontmatterOf_set_withLayout hfA.2, hfB.1], ?_⟩
    rw [getElem?_set_of_ne hfA.2 hne, hfB.2]
  have hfA' : HasFrontmatter (h.set B.frontmatter (withLayout oB)) (.ref A.file)
      A.frontmatter oA := by
    refine ⟨by rw [frontmatterOf_set_withLayout hfB.2, hfA.1], ?_⟩
    rw [getElem?_set_of_ne hfB.2 (Ne.symm hne), hfA.2]
  rw [call_of_hasFrontmatter hf hfA, call_of_hasFrontmatter hf hfB]
  simp only []
  rw [call_of_hasFrontmatter hf1 hfB', call_of_hasFrontmatter hf2 hfA']
  refine ⟨?_, DocRecord.inHeap_set hB hfA.2, rfl, rfl, ?_, ?_⟩
  · intro a ha
    exact getElem?_set_of_ne hfA.2 (hAB a ha)
  · exact List.set_comm _ _ _ (Ne.symm hne)
  · intro a ha
    simp only []
    rw [List.set_comm _ _ _ (Ne.symm hne)]
    have hoA' : (h.set B.frontmatter (withLayout oB))[A.frontmatter]? = some oA := hfA'.2
    exact getElem?_set_of_ne hoA' (hAB a ha)

theorem invocations_independent_witness :
    (∀ a ∈ (⟨4, 5, 6, 7⟩ : DocRecord).objects,
      (call twoDocsHeap (.ref 8) [.null, .ref 0]).2[a]? = twoDocsHeap[a]?) ∧
    (⟨4, 5, 6, 7⟩ : DocRecord).inHeap (call twoDocsHeap (.ref 8) [.null, .ref 0]).2 ∧
    (call (call twoDocsHeap (.ref 8) [.null, .ref 0]).2 (.ref 8) [.null, .ref 4]).1
      = .normal .undefined ∧
    (call (call twoDocsHeap (.ref 8) [.null, .ref 4]).2 (.ref 8) [.null, .ref 0]).1
      = .normal .undefined ∧
    (call (call twoDocsHeap (.ref 8) [.null, .ref 0]).2 (.ref 8) [.null, .ref 4]).2
      = (call (call twoDocsHeap (.ref 8) [.null, .ref 4]).2 (.ref 8) [.null, .ref 0]).2 ∧
    (∀ a ∈ (⟨4, 5, 6, 7⟩ : DocRecord).objects,
      (call (call twoDocsHeap (.ref 8) [.null, .ref 0]).2 (.ref 8) [.null, .ref 4]).2[a]?
        = (call twoDocsHeap (.ref 8) [.null, .ref 4]).2[a]?) :=
  invocations_independent twoDocsHeap (.ref 8) .null .null ⟨0, 1, 2, 3⟩ ⟨4, 5, 6, 7⟩
    (by decide) (by decide) (by decide) (by decide)

/-- C9, as amended: the configuration handed to `defineConfig` registers the
two integrations `preact()` and `react()` in that order, keeps the default
transforms (`extendDefaultPlugins` is true), has the `site` string
`"http://astro.build"`, and lists exactly one Markdown plugin: the function
`defaultLayoutPlugin` itself, which is not the transform but, called with any
arguments, returns the transform. -/
theorem exportDefault_registers {I C : Type} (defineConfig : AstroUserConfig I → C)
    (preact react : List JSValue → I) (h : Heap) :
    (exportDefault defineConfig preact react h).1
      = defineConfig (userConfig preact react (.ref h.length)) ∧
    (userConfig preact react (.ref h.length)).integrations = [preact [], react []] ∧
    (userConfig preact react (.ref h.length)).markdown.extendDefaultPlugins = true ∧
    (userConfig preact react (.ref h.length)).site = "http://astro.build" ∧
    (userConfig preact react (.ref h.length)).markdown.remarkPlugins = [.ref h.length] ∧
    isTransformer (exportDefault defineConfig preact react h).2 (.ref h.length) = false ∧
    ∀ args, ∃ t,
      (call (exportDefault defineConfig preact react h).2 (.ref h.length) args).1 = .normal t ∧
      isTransformer
        (call (exportDefault defineConfig preact react h).2 (.ref h.length) args).2 t = true := by
  refine ⟨rfl, rfl, rfl, rfl, rfl, ?_, ?_⟩
  · simp [exportDefault, isTransformer]
  · intro args
    have hc : call (h ++ [⟨[], some .defaultLayoutPlugin⟩]) (.ref h.length) args
        = defaultLayoutPlugin args (h ++ [⟨[], some .defaultLayoutPlugin⟩]) := by
      simp [call]
    simp only [exportDefault]
    rw [hc]
    exact isTransformer_defaultLayoutPlugin _ _

/-- C9, as stated, fails: the one entry of `remarkPlugins` is not a transform of
signature `(tree, file) -> void`.  Called on `(tree, file)` it returns a
function object instead of `undefined` and leaves the frontmatter without
`layout`, where the transform (at address 4) sets it. -/
theorem remarkPlugins_entry_not_transform :
    sampleModule.1.markdown.remarkPlugins = [.ref 5] ∧
    isTransformer sampleModule.2 (.ref 5) = false ∧
    (call sampleModule.2 (.ref 5) [.null, .ref 0]).1 = .normal (.ref 6) ∧
    field (call sampleModule.2 (.ref 5) [.null, .ref 0]).2 3 "layout" = none ∧
    (call sampleModule.2 (.ref 4) [.null, .ref 0]).1 = .normal .undefined ∧
    field (call sampleModule.2 (.ref 4) [.null, .ref 0]).2 3 "layout"
      = some (.string "@layouts/MainLayout.astro") := by
  decide

end AstroConfig
